import Mathlib

/-!
Verification model of `server.py`, a static-file HTTP server for the
Cabriolet game.  The file defines a shallow embedding of the program:

* the pieces written in the repository itself (`extensions_map`,
  `log_message`, `end_headers`, `main`) are translated directly from
  `src/server.py`;
* the behaviour the program inherits from the standard library
  (`http.server.SimpleHTTPRequestHandler`, `socketserver.TCPServer`) is
  modelled from the library the program runs on (`splitext`,
  `guess_type`, `send_error`, the GET/HEAD dispatch of `send_head`) and,
  where only the specification describes it, from the specification.

Paths and header strings are lists of characters; file bodies are lists
of byte values.
-/

/-- Byte content of a file, one natural number per byte. -/
abbrev Bytes := List Nat

/-- Header name/value pair. -/
abbrev Header := List Char × List Char

/-- The filesystem under the served root: regular files with their byte
content, and the set of directories. -/
structure Fs where
  files : List (List Char × Bytes)
  dirs : List (List Char)

/-- An incoming HTTP request: method, request path, client address. -/
structure Request where
  method : List Char
  path : List Char
  client : List Char

/-- An outgoing HTTP response: status code, finalized header list,
body bytes. -/
structure Response where
  status : Nat
  headers : List Header
  body : Bytes

/-- Mutable server-side state visible to the handler.  The only
candidate is the MIME table, a class attribute of `CustomHandler`. -/
structure ServerState where
  extensionsMap : List (List Char × List Char)

/-- The fixed TCP port, from `PORT = 9000` in `server.py`. -/
def PORT : Nat := 9000

/-- The custom MIME table, translated entry for entry from
`CustomHandler.extensions_map` in `server.py` (lines 15-29). -/
def extensions_map : List (List Char × List Char) :=
  [ (".html".data, "text/html".data),
    (".css".data, "text/css".data),
    (".js".data, "application/javascript".data),
    (".json".data, "application/json".data),
    (".png".data, "image/png".data),
    (".jpg".data, "image/jpeg".data),
    (".jpeg".data, "image/jpeg".data),
    (".gif".data, "image/gif".data),
    (".svg".data, "image/svg+xml".data),
    (".ico".data, "image/x-icon".data),
    (".mp3".data, "audio/mpeg".data),
    (".wav".data, "audio/wav".data),
    ([], "application/octet-stream".data) ]

/-- The server state at startup: the handler class carries exactly the
custom MIME table. -/
def initState : ServerState := ⟨extensions_map⟩

/-- The filename component of a path: the characters after the last
slash (the whole path when it has no slash). -/
def basenameOf (p : List Char) : List Char :=
  (p.reverse.takeWhile (fun c => c != '/')).reverse

/-- Extension splitting, modelled from `posixpath.splitext`
(`genericpath._splitext`): the extension starts at the last dot of the
filename, provided some character of the filename strictly before that
dot is not itself a dot (so leading-dot names such as `.bashrc` have no
extension); otherwise the extension is empty. -/
def extOf (p : List Char) : List Char :=
  let rb := (basenameOf p).reverse
  match rb.dropWhile (fun c => c != '.') with
  | '.' :: revPre =>
      if revPre.any (fun c => c != '.') then
        '.' :: (rb.takeWhile (fun c => c != '.')).reverse
      else []
  | _ => []

/-- Lowercasing of an extension, as in `ext = ext.lower()`. -/
def lowerExt (e : List Char) : List Char := e.map Char.toLower

/-- Content-type resolution, modelled from
`SimpleHTTPRequestHandler.guess_type` of the standard library the
program runs on: look the extension up as-is, then lowercased, then ask
the platform `mimetypes` registry (abstracted as the parameter `mg`),
and only then fall back to `application/octet-stream`. -/
def guess_type (tbl : List (List Char × List Char))
    (mg : List Char → Option (List Char)) (p : List Char) : List Char :=
  match List.lookup (extOf p) tbl with
  | some t => t
  | none =>
      match List.lookup (lowerExt (extOf p)) tbl with
      | some t => t
      | none =>
          match mg p with
          | some g => g
          | none => "application/octet-stream".data

/-- The CORS header injected by `CustomHandler.end_headers`. -/
def corsHeader : Header := ("Access-Control-Allow-Origin".data, "*".data)

/-- Header finalization, translated from `CustomHandler.end_headers`
(lines 35-38): it first sends `Access-Control-Allow-Origin: *` and then
delegates to the base class, which flushes the accumulated headers, so
the finalized header list is the accumulated one with the CORS header
appended. -/
def end_headers (hs : List Header) : List Header := hs ++ [corsHeader]

/-- Content type of the default error pages, from
`BaseHTTPRequestHandler.error_content_type`. -/
def error_content_type : List Char := "text/html;charset=utf-8".data

/-- Modelled from the spec: the primitive's default error body (an HTML
page for the status code); its exact content is not load-bearing, so it
is abstracted as the decimal digits of the code. -/
def errorBody (code : Nat) : Bytes := (toString code).data.map Char.toNat

/-- Modelled from the spec: the directory-listing body emitted when a
directory has no index file; its content is abstracted as the
concatenated names of the files. -/
def listingBody (fs : Fs) : Bytes :=
  ((fs.files.map Prod.fst).flatten).map Char.toNat

/-- The request line as logged, `method path HTTP/1.1`. -/
def requestline (m p : List Char) : List Char :=
  m ++ ' ' :: (p ++ " HTTP/1.1".data)

/-- The per-request description produced by
`BaseHTTPRequestHandler.log_request`: `"<requestline>" <code> -`. -/
def formatRequest (m p : List Char) (code : Nat) : List Char :=
  '\"' :: (requestline m p ++ '\"' :: ' ' :: ((toString code).data ++ " -".data))

/-- The log writer, translated from `CustomHandler.log_message`
(lines 31-33): one line on standard output of the form
`<address> - <formatted message>`. -/
def log_message (addr formatted : List Char) : List Char :=
  addr ++ " - ".data ++ formatted ++ ['\n']

/-- The error description logged by `BaseHTTPRequestHandler.send_error`
through `log_error`: `code <code>, message <message>`. -/
def formatError (code : Nat) (message : List Char) : List Char :=
  "code ".data ++ (toString code).data ++ (", message ".data ++ message)

/-- An error reply, modelled from `BaseHTTPRequestHandler.send_error`:
it first calls `log_error` with `code <code>, message <message>` —
which funnels into the overridden `log_message` and so also lands on
standard output — then sends the status code, a `Content-Type` header
for the error page, headers finalized through the overridden
`end_headers`, and the default error body.  Returns the response
together with the standard-output line of that `log_error` call (the
later `log_request` line is added by the caller). -/
def send_error (client : List Char) (code : Nat) (message : List Char) :
    Response × List (List Char) :=
  ({ status := code,
     headers := end_headers [("Content-Type".data, error_content_type)],
     body := errorBody code },
   [log_message client (formatError code message)])

/-- Handling of one request, assembled from the overridden methods of
`CustomHandler` and, modelled from the spec and the standard library it
wraps, the inherited GET/HEAD dispatch of `SimpleHTTPRequestHandler`
(`do_GET`/`do_HEAD`/`send_head`): serve an existing regular file with
its resolved content type; redirect a directory path lacking a trailing
slash; serve a directory's index file or a listing; answer 404 with
message `File not found` when nothing exists at the path; reject other
methods with 501 and message `Unsupported method ('<method>')`.
Returns the server state after the request, the response, and the
lines written to standard output: the error branches first write the
`log_error` line of `send_error`, and every branch then writes the
`log_request` line, both through the overridden `log_message`. -/
def serverStep (s : ServerState) (fs : Fs)
    (mg : List Char → Option (List Char)) (req : Request) :
    ServerState × Response × List (List Char) :=
  let branch : Response × List (List Char) :=
    if req.method = "GET".data ∨ req.method = "HEAD".data then
      match List.lookup req.path fs.files with
      | some bytes =>
          ({ status := 200,
             headers := end_headers
               [("Content-Type".data, guess_type s.extensionsMap mg req.path)],
             body := if req.method = "GET".data then bytes else [] }, [])
      | none =>
          if req.path ∈ fs.dirs then
            if req.path.getLast? = some '/' then
              match List.lookup (req.path ++ "index.html".data) fs.files with
              | some bytes =>
                  ({ status := 200,
                     headers := end_headers
                       [("Content-Type".data,
                         guess_type s.extensionsMap mg (req.path ++ "index.html".data))],
                     body := if req.method = "GET".data then bytes else [] }, [])
              | none =>
                  ({ status := 200,
                     headers := end_headers
                       [("Content-Type".data, "text/html; charset=utf-8".data)],
                     body := listingBody fs }, [])
            else
              ({ status := 301,
                 headers := end_headers [("Location".data, req.path ++ ['/'])],
                 body := [] }, [])
          else send_error req.client 404 "File not found".data
    else send_error req.client 501
      ("Unsupported method (".data ++ '\'' :: (req.method ++ '\'' :: ")".data))
  (s, branch.1,
   branch.2 ++ [log_message req.client (formatRequest req.method req.path branch.1.status)])

/-- A sequence of requests served one after the other, threading the
server state; returns the final state and the responses in order. -/
def runRequests (s : ServerState) (fs : Fs)
    (mg : List Char → Option (List Char)) : List Request → ServerState × List Response
  | [] => (s, [])
  | r :: rs =>
      ((runRequests (serverStep s fs mg r).1 fs mg rs).1,
       (serverStep s fs mg r).2.1 :: (runRequests (serverStep s fs mg r).1 fs mg rs).2)

/-- Outcome of binding the listening socket at startup. -/
inductive BindResult where
  | ok : BindResult
  | fail (errMsg : String) : BindResult
deriving DecidableEq

/-- How `serve_forever` ends: `serve_forever` never returns normally, so
either the operator interrupts the process or some other exception
escapes the loop. -/
inductive ServeOutcome where
  | interrupted : ServeOutcome
  | raised (errMsg : String) : ServeOutcome

/-- Observable result of a whole run of the process. -/
structure ProcResult where
  exitCode : Nat
  stdout : List String
  stderr : List String
  socketClosed : Bool

/-- The startup banner printed by `main` after a successful bind, one
entry per `print` call (lines 46-50 of `server.py`). -/
def bannerLines : List String :=
  [ "\n-----------------------------------------",
    "Server running at http://localhost:" ++ toString PORT ++ "/",
    "-----------------------------------------",
    "Open your browser to view the game!",
    "Press Ctrl+C to stop the server\n" ]

/-- The shutdown notice printed when the serve loop is interrupted
(line 55 of `server.py`). -/
def shutdownNotice : String := "\nServer stopped."

/-- Diagnostic output of the interpreter for an exception nobody
catches: a traceback ending in the error message. -/
def tracebackOf (msg : String) : String :=
  "Traceback (most recent call last):\n" ++ msg

/-- The `main` function of `server.py`, modelled over the two external
events it depends on: whether the bind succeeds and how the serve loop
ends.  A failed bind raises out of the `TCPServer` constructor (which
closes the socket before re-raising), so no banner is printed and the
interpreter exits with status 1 printing a traceback.  After a
successful bind the banner is printed; `KeyboardInterrupt` is caught,
prints the shutdown notice and lets `main` return with status 0, while
any other exception propagates uncaught (status 1, traceback, no
notice).  The `with` statement closes the listening socket on every
path out of its body. -/
def mainRun (b : BindResult) (sv : ServeOutcome) : ProcResult :=
  match b with
  | .fail msg =>
      { exitCode := 1, stdout := [], stderr := [tracebackOf msg], socketClosed := true }
  | .ok =>
      match sv with
      | .interrupted =>
          { exitCode := 0, stdout := bannerLines ++ [shutdownNotice],
            stderr := [], socketClosed := true }
      | .raised msg =>
          { exitCode := 1, stdout := bannerLines,
            stderr := [tracebackOf msg], socketClosed := true }

/-- Whether `needle` occurs at the very start of `hay`. -/
def isHeadOf : List Char → List Char → Bool
  | [], _ => true
  | _ :: _, [] => false
  | a :: as, b :: bs => a == b && isHeadOf as bs

/-- Whether `needle` occurs contiguously anywhere inside `hay`. -/
def containsSeq (needle : List Char) : List Char → Bool
  | [] => isHeadOf needle []
  | c :: rest => isHeadOf needle (c :: rest) || containsSeq needle rest

/-- The `Content-Type` header value of a response, when present. -/
def contentTypeOf (r : Response) : Option (List Char) :=
  List.lookup "Content-Type".data r.headers

/-! ## Helper lemmas -/

theorem cors_mem_end_headers (hs : List Header) : corsHeader ∈ end_headers hs := by
  simp [end_headers]

theorem isHeadOf_append_self (n b : List Char) : isHeadOf n (n ++ b) = true := by
  induction n with
  | nil => simp [isHeadOf]
  | cons x xs ih => simp [isHeadOf, ih]

theorem containsSeq_of_isHeadOf (n h : List Char) (hh : isHeadOf n h = true) :
    containsSeq n h = true := by
  cases h with
  | nil => simpa [containsSeq] using hh
  | cons c r => simp [containsSeq, hh]

theorem containsSeq_append_left (a n h : List Char) (hc : containsSeq n h = true) :
    containsSeq n (a ++ h) = true := by
  induction a with
  | nil => simpa using hc
  | cons x xs ih => simp [containsSeq, ih]

theorem containsSeq_cons (c : Char) (n h : List Char) (hc : containsSeq n h = true) :
    containsSeq n (c :: h) = true := by
  simp [containsSeq, hc]

theorem containsSeq_mid (a n b : List Char) : containsSeq n (a ++ (n ++ b)) = true :=
  containsSeq_append_left a n (n ++ b)
    (containsSeq_of_isHeadOf n (n ++ b) (isHeadOf_append_self n b))

theorem takeWhile_append_stop (p : Char → Bool) (l : List Char) (a : Char) (r : List Char)
    (hl : ∀ c ∈ l, p c = true) (ha : p a = false) :
    (l ++ a :: r).takeWhile p = l := by
  induction l with
  | nil => simp [List.takeWhile_cons, ha]
  | cons x xs ih =>
      have hx : p x = true := hl x (by simp)
      simp [List.takeWhile_cons, hx, ih (fun c hc => hl c (by simp [hc]))]

theorem dropWhile_append_stop (p : Char → Bool) (l : List Char) (a : Char) (r : List Char)
    (hl : ∀ c ∈ l, p c = true) (ha : p a = false) :
    (l ++ a :: r).dropWhile p = a :: r := by
  induction l with
  | nil => simp [List.dropWhile_cons, ha]
  | cons x xs ih =>
      have hx : p x = true := hl x (by simp)
      simp [List.dropWhile_cons, hx, ih (fun c hc => hl c (by simp [hc]))]

/-- Extension splitting evaluated on a filename that decomposes as a
stem, a dot and a dot-free suffix: when the stem has a non-dot
character the extension is the dot plus the suffix. -/
theorem extOf_eq_of_basename (pa pre suf : List Char)
    (hb : basenameOf pa = pre ++ '.' :: suf)
    (hs : ∀ c ∈ suf, c ≠ '.')
    (hp : pre.any (fun c => c != '.') = true) :
    extOf pa = '.' :: suf := by
  have hrev : (basenameOf pa).reverse = suf.reverse ++ '.' :: pre.reverse := by
    rw [hb]; simp
  have hall : ∀ c ∈ suf.reverse, (c != '.') = true := by
    intro c hc
    simpa using hs c (List.mem_reverse.mp hc)
  have hstop : (('.' : Char) != '.') = false := by decide
  have hdrop : (basenameOf pa).reverse.dropWhile (fun c => c != '.') = '.' :: pre.reverse := by
    rw [hrev]; exact dropWhile_append_stop _ _ _ _ hall hstop
  have htake : (basenameOf pa).reverse.takeWhile (fun c => c != '.') = suf.reverse := by
    rw [hrev]; exact takeWhile_append_stop _ _ _ _ hall hstop
  have hany : pre.reverse.any (fun c => c != '.') = true := by
    rw [List.any_eq_true] at hp ⊢
    obtain ⟨x, hx, hpx⟩ := hp
    exact ⟨x, List.mem_reverse.mpr hx, hpx⟩
  unfold extOf
  dsimp only
  rw [hdrop, htake]
  simp [hany]

/-- The response to a GET or HEAD request for an existing regular file:
status 200, a `Content-Type` header carrying the resolved type, headers
finalized through the overridden `end_headers`, and the file's bytes as
body (empty for HEAD). -/
theorem serve_file_response (s : ServerState) (fs : Fs)
    (mg : List Char → Option (List Char)) (m pa addr : List Char) (bytes : Bytes)
    (hm : m = "GET".data ∨ m = "HEAD".data)
    (hf : List.lookup pa fs.files = some bytes) :
    (serverStep s fs mg ⟨m, pa, addr⟩).2.1 =
      { status := 200,
        headers := end_headers
          [("Content-Type".data, guess_type s.extensionsMap mg pa)],
        body := if m = "GET".data then bytes else [] } := by
  unfold serverStep
  dsimp only
  rw [if_pos hm, hf]

theorem contentTypeOf_serve (s : ServerState) (fs : Fs)
    (mg : List Char → Option (List Char)) (m pa addr : List Char) (bytes : Bytes)
    (hm : m = "GET".data ∨ m = "HEAD".data)
    (hf : List.lookup pa fs.files = some bytes) :
    contentTypeOf (serverStep s fs mg ⟨m, pa, addr⟩).2.1 =
      some (guess_type s.extensionsMap mg pa) := by
  rw [serve_file_response s fs mg m pa addr bytes hm hf]
  rfl

/-- Content-type resolution through the first (as-is) table lookup. -/
theorem guess_type_of_lookup (mg : List Char → Option (List Char)) (pa ty : List Char)
    (hl : List.lookup (extOf pa) extensions_map = some ty) :
    guess_type extensions_map mg pa = ty := by
  unfold guess_type
  rw [hl]

/-- The `Content-Type` of a served file whose filename splits into a
stem with a non-dot character, a dot, and a dot-free suffix that the
MIME table maps. -/
theorem served_ct_of_ext (fs : Fs) (mg : List Char → Option (List Char))
    (m pa addr pre suf ty : List Char) (bytes : Bytes)
    (hm : m = "GET".data ∨ m = "HEAD".data)
    (hf : List.lookup pa fs.files = some bytes)
    (hb : basenameOf pa = pre ++ '.' :: suf)
    (hs : ∀ c ∈ suf, c ≠ '.')
    (hp : pre.any (fun c => c != '.') = true)
    (hl : List.lookup ('.' :: suf) extensions_map = some ty) :
    contentTypeOf (serverStep initState fs mg ⟨m, pa, addr⟩).2.1 = some ty := by
  rw [contentTypeOf_serve initState fs mg m pa addr bytes hm hf]
  have he : extOf pa = '.' :: suf := extOf_eq_of_basename pa pre suf hb hs hp
  have : guess_type initState.extensionsMap mg pa = ty := by
    show guess_type extensions_map mg pa = ty
    exact guess_type_of_lookup mg pa ty (by rw [he]; exact hl)
  rw [this]

/-- C1.  Every HTTP response the server sends, on every branch of the
handler (file 200, directory listing or index 200, redirect 301,
not-found 404, method rejection 501), carries the header
`Access-Control-Allow-Origin: *`: the `end_headers` override appends it
unconditionally when headers are finalized, so every finalized header
list contains it. -/
theorem c1_cors_on_every_response :
    (∀ hs : List Header, corsHeader ∈ end_headers hs) ∧
    (∀ (s : ServerState) (fs : Fs) (mg : List Char → Option (List Char)) (req : Request),
      corsHeader ∈ (serverStep s fs mg req).2.1.headers) := by
  constructor
  · exact cors_mem_end_headers
  · intro s fs mg req
    unfold serverStep
    dsimp only
    split
    · split
      · exact cors_mem_end_headers _
      · split
        · split
          · split
            · exact cors_mem_end_headers _
            · exact cors_mem_end_headers _
          · exact cors_mem_end_headers _
        · exact cors_mem_end_headers _
    · exact cors_mem_end_headers _

/-- C2 counterexample.  The claim quantifies over every request whose
filename ends in a mapped extension.  It fails twice on the code: a GET
for `/missing.png` (no such file) is answered 404 with the error page's
`Content-Type: text/html;charset=utf-8`, not `image/png`; and a file
named exactly `.html` is served with `application/octet-stream`, not
`text/html`, because extension splitting gives leading-dot names no
extension. -/
theorem c2_counterexample :
    "/missing.png".data = "/missing".data ++ ".png".data ∧
    (serverStep initState ⟨[], []⟩ (fun _ => none)
        ⟨"GET".data, "/missing.png".data, "client".data⟩).2.1.status = 404 ∧
    contentTypeOf (serverStep initState ⟨[], []⟩ (fun _ => none)
        ⟨"GET".data, "/missing.png".data, "client".data⟩).2.1 = some error_content_type ∧
    ¬ contentTypeOf (serverStep initState ⟨[], []⟩ (fun _ => none)
        ⟨"GET".data, "/missing.png".data, "client".data⟩).2.1 = some "image/png".data ∧
    basenameOf "/.html".data = ".html".data ∧
    (serverStep initState ⟨[("/.html".data, [60])], []⟩ (fun _ => none)
        ⟨"GET".data, "/.html".data, "client".data⟩).2.1.status = 200 ∧
    contentTypeOf (serverStep initState ⟨[("/.html".data, [60])], []⟩ (fun _ => none)
        ⟨"GET".data, "/.html".data, "client".data⟩).2.1 =
      some "application/octet-stream".data := by
  decide

/-- C2 (amended).  For every GET or HEAD request for an existing
regular file whose filename ends in one of the twelve mapped
extensions, in exact lowercase form and preceded by at least one
non-dot character, the `Content-Type` of the response is exactly the
table's value for that extension. -/
theorem c2_content_type_table :
    (∀ (fs : Fs) (mg : List Char → Option (List Char)) (m pa addr pre : List Char)
      (bytes : Bytes), (m = "GET".data ∨ m = "HEAD".data) →
      List.lookup pa fs.files = some bytes →
      basenameOf pa = pre ++ '.' :: "html".data →
      pre.any (fun c => c != '.') = true →
      contentTypeOf (serverStep initState fs mg ⟨m, pa, addr⟩).2.1 = some "text/html".data) ∧
    (∀ (fs : Fs) (mg : List Char → Option (List Char)) (m pa addr pre : List Char)
      (bytes : Bytes), (m = "GET".data ∨ m = "HEAD".data) →
      List.lookup pa fs.files = some bytes →
      basenameOf pa = pre ++ '.' :: "css".data →
      pre.any (fun c => c != '.') = true →
      contentTypeOf (serverStep initState fs mg ⟨m, pa, addr⟩).2.1 = some "text/css".data) ∧
    (∀ (fs : Fs) (mg : List Char → Option (List Char)) (m pa addr pre : List Char)
      (bytes : Bytes), (m = "GET".data ∨ m = "HEAD".data) →
      List.lookup pa fs.files = some bytes →
      basenameOf pa = pre ++ '.' :: "js".data →
      pre.any (fun c => c != '.') = true →
      contentTypeOf (serverStep initState fs mg ⟨m, pa, addr⟩).2.1 =
        some "application/javascript".data) ∧
    (∀ (fs : Fs) (mg : List Char → Option (List Char)) (m pa addr pre : List Char)
      (bytes : Bytes), (m = "GET".data ∨ m = "HEAD".data) →
      List.lookup pa fs.files = some bytes →
      basenameOf pa = pre ++ '.' :: "json".data →
      pre.any (fun c => c != '.') = true →
      contentTypeOf (serverStep initState fs mg ⟨m, pa, addr⟩).2.1 =
        some "application/json".data) ∧
    (∀ (fs : Fs) (mg : List Char → Option (List Char)) (m pa addr pre : List Char)
      (bytes : Bytes), (m = "GET".data ∨ m = "HEAD".data) →
      List.lookup pa fs.files = some bytes →
      basenameOf pa = pre ++ '.' :: "png".data →
      pre.any (fun c => c != '.') = true →
      contentTypeOf (serverStep initState fs mg ⟨m, pa, addr⟩).2.1 = some "image/png".data) ∧
    (∀ (fs : Fs) (mg : List Char → Option (List Char)) (m pa addr pre : List Char)
      (bytes : Bytes), (m = "GET".data ∨ m = "HEAD".data) →
      List.lookup pa fs.files = some bytes →
      basenameOf pa = pre ++ '.' :: "jpg".data →
      pre.any (fun c => c != '.') = true →
      contentTypeOf (serverStep initState fs mg ⟨m, pa, addr⟩).2.1 = some "image/jpeg".data) ∧
    (∀ (fs : Fs) (mg : List Char → Option (List Char)) (m pa addr pre : List Char)
      (bytes : Bytes), (m = "GET".data ∨ m = "HEAD".data) →
      List.lookup pa fs.files = some bytes →
      basenameOf pa = pre ++ '.' :: "jpeg".data →
      pre.any (fun c => c != '.') = true →
      contentTypeOf (serverStep initState fs mg ⟨m, pa, addr⟩).2.1 = some "image/jpeg".data) ∧
    (∀ (fs : Fs) (mg : List Char → Option (List Char)) (m pa addr pre : List Char)
      (bytes : Bytes), (m = "GET".data ∨ m = "HEAD".data) →
      List.lookup pa fs.files = some bytes →
      basenameOf pa = pre ++ '.' :: "gif".data →
      pre.any (fun c => c != '.') = true →
      contentTypeOf (serverStep initState fs mg ⟨m, pa, addr⟩).2.1 = some "image/gif".data) ∧
    (∀ (fs : Fs) (mg : List Char → Option (List Char)) (m pa addr pre : List Char)
      (bytes : Bytes), (m = "GET".data ∨ m = "HEAD".data) →
      List.lookup pa fs.files = some bytes →
      basenameOf pa = pre ++ '.' :: "svg".data →
      pre.any (fun c => c != '.') = true →
      contentTypeOf (serverStep initState fs mg ⟨m, pa, addr⟩).2.1 =
        some "image/svg+xml".data) ∧
    (∀ (fs : Fs) (mg : List Char → Option (List Char)) (m pa addr pre : List Char)
      (bytes : Bytes), (m = "GET".data ∨ m = "HEAD".data) →
      List.lookup pa fs.files = some bytes →
      basenameOf pa = pre ++ '.' :: "ico".data →
      pre.any (fun c => c != '.') = true →
      contentTypeOf (serverStep initState fs mg ⟨m, pa, addr⟩).2.1 =
        some "image/x-icon".data) ∧
    (∀ (fs : Fs) (mg : List Char → Option (List Char)) (m pa addr pre : List Char)
      (bytes : Bytes), (m = "GET".data ∨ m = "HEAD".data) →
      List.lookup pa fs.files = some bytes →
      basenameOf pa = pre ++ '.' :: "mp3".data →
      pre.any (fun c => c != '.') = true →
      contentTypeOf (serverStep initState fs mg ⟨m, pa, addr⟩).2.1 = some "audio/mpeg".data) ∧
    (∀ (fs : Fs) (mg : List Char → Option (List Char)) (m pa addr pre : List Char)
      (bytes : Bytes), (m = "GET".data ∨ m = "HEAD".data) →
      List.lookup pa fs.files = some bytes →
      basenameOf pa = pre ++ '.' :: "wav".data →
      pre.any (fun c => c != '.') = true →
      contentTypeOf (serverStep initState fs mg ⟨m, pa, addr⟩).2.1 = some "audio/wav".data) := by
  refine ⟨?_, ?_, ?_, ?_, ?_, ?_, ?_, ?_, ?_, ?_, ?_, ?_⟩ <;>
    (intro fs mg m pa addr pre bytes hm hf hb hp
     exact served_ct_of_ext fs mg m pa addr pre _ _ bytes hm hf hb (by decide) hp (by decide))

theorem c2_content_type_table_witness :
    List.lookup "/index.html".data
        (Fs.mk [("/index.html".data, [60, 104, 49, 62])] []).files =
      some [60, 104, 49, 62] ∧
    basenameOf "/index.html".data = "index".data ++ '.' :: "html".data ∧
    ("index".data).any (fun c => c != '.') = true ∧
    contentTypeOf (serverStep initState (Fs.mk [("/index.html".data, [60, 104, 49, 62])] [])
        (fun _ => none) ⟨"GET".data, "/index.html".data, "127.0.0.1".data⟩).2.1 =
      some "text/html".data :=
  ⟨by decide, by decide, by decide,
   c2_content_type_table.1 (Fs.mk [("/index.html".data, [60, 104, 49, 62])] [])
     (fun _ => none) "GET".data "/index.html".data "127.0.0.1".data "index".data
     [60, 104, 49, 62] (Or.inl rfl) (by decide) (by decide) (by decide)⟩

/-- C3 counterexample.  The extension `.HTML` is absent from the custom
MIME table, yet resolution of a file named `page.HTML` yields
`text/html`, not the claimed `application/octet-stream` fallback,
because the inherited `guess_type` retries with the lowercased
extension. -/
theorem c3_counterexample :
    List.lookup ".HTML".data extensions_map = none ∧
    guess_type extensions_map (fun _ => none) "/page.HTML".data = "text/html".data ∧
    ¬ "text/html".data = "application/octet-stream".data := by
  decide

/-- C3 (amended).  Content-type resolution looks the extension up
as-is; an extension absent from the table is lowercased and looked up
again, so `.HTML` resolves to `text/html`; only when both lookups fail
and the platform `mimetypes` registry has no guess is the fallback
`application/octet-stream` used. -/
theorem c3_resolution_fallback :
    (∀ (mg : List Char → Option (List Char)) (pa : List Char),
      List.lookup (extOf pa) extensions_map = none →
      List.lookup (lowerExt (extOf pa)) extensions_map = none →
      mg pa = none →
      guess_type extensions_map mg pa = "application/octet-stream".data) ∧
    (∀ (mg : List Char → Option (List Char)) (pa pre : List Char),
      basenameOf pa = pre ++ '.' :: "HTML".data →
      pre.any (fun c => c != '.') = true →
      guess_type extensions_map mg pa = "text/html".data) := by
  constructor
  · intro mg pa h1 h2 h3
    unfold guess_type
    rw [h1, h2, h3]
  · intro mg pa pre hb hp
    have he : extOf pa = '.' :: "HTML".data :=
      extOf_eq_of_basename pa pre _ hb (by decide) hp
    unfold guess_type
    rw [he]
    rfl

theorem c3_resolution_fallback_witness :
    List.lookup (extOf "/notes.xyz".data) extensions_map = none ∧
    List.lookup (lowerExt (extOf "/notes.xyz".data)) extensions_map = none ∧
    (fun _ : List Char => (none : Option (List Char))) "/notes.xyz".data = none ∧
    guess_type extensions_map (fun _ => none) "/notes.xyz".data =
      "application/octet-stream".data :=
  ⟨by decide, by decide, rfl,
   c3_resolution_fallback.1 (fun _ => none) "/notes.xyz".data (by decide) (by decide) rfl⟩

/-- The log line written for a request contains the client address, the
method, the path and the decimal status code. -/
theorem logLine_contains (addr m p : List Char) (st : Nat) :
    containsSeq addr (log_message addr (formatRequest m p st)) = true ∧
    containsSeq m (log_message addr (formatRequest m p st)) = true ∧
    containsSeq p (log_message addr (formatRequest m p st)) = true ∧
    containsSeq (toString st).data (log_message addr (formatRequest m p st)) = true := by
  have hline : log_message addr (formatRequest m p st) =
      addr ++ (" - ".data ++ ('\"' :: (m ++ (' ' :: (p ++ (" HTTP/1.1".data ++
        ('\"' :: ' ' :: ((toString st).data ++ (" -".data ++ ['\n'])))))))))  := by
    simp [log_message, formatRequest, requestline, List.append_assoc]
  refine ⟨?_, ?_, ?_, ?_⟩ <;> rw [hline]
  · exact containsSeq_of_isHeadOf _ _ (isHeadOf_append_self _ _)
  · apply containsSeq_append_left
    apply containsSeq_append_left
    apply containsSeq_cons
    exact containsSeq_of_isHeadOf _ _ (isHeadOf_append_self _ _)
  · apply containsSeq_append_left
    apply containsSeq_append_left
    apply containsSeq_cons
    apply containsSeq_append_left
    apply containsSeq_cons
    exact containsSeq_of_isHeadOf _ _ (isHeadOf_append_self _ _)
  · apply containsSeq_append_left
    apply containsSeq_append_left
    apply containsSeq_cons
    apply containsSeq_append_left
    apply containsSeq_cons
    apply containsSeq_append_left
    apply containsSeq_append_left
    apply containsSeq_cons
    apply containsSeq_cons
    exact containsSeq_of_isHeadOf _ _ (isHeadOf_append_self _ _)

/-- C4 counterexample.  The claim says every request writes exactly
one log line; but a GET for a missing file writes two lines to
standard output: `send_error` first logs `code 404, message File not
found` through `log_error`, which the overridden `log_message`
redirects to standard output, and the subsequent `send_response` then
logs the request line. -/
theorem c4_counterexample :
    (serverStep initState (Fs.mk [] []) (fun _ => none)
        ⟨"GET".data, "/missing.png".data, "127.0.0.1".data⟩).2.2.length = 2 ∧
    ¬ (serverStep initState (Fs.mk [] []) (fun _ => none)
        ⟨"GET".data, "/missing.png".data, "127.0.0.1".data⟩).2.2.length = 1 ∧
    (serverStep initState (Fs.mk [] []) (fun _ => none)
        ⟨"GET".data, "/missing.png".data, "127.0.0.1".data⟩).2.2 =
      [log_message "127.0.0.1".data (formatError 404 "File not found".data),
       log_message "127.0.0.1".data (formatRequest "GET".data "/missing.png".data 404)] := by
  decide

/-- C4 (amended).  Every request writes its `log_request` line — which
contains the client address, the method, the path and the status
code — to standard output as the last log line; 200 and 301 responses
write exactly that one line, while the error responses (404 and 501)
write exactly two lines: the `log_error` line `code <code>, message
<message>` followed by the request line, both on standard output
because the overridden `log_message` redirects them there. -/
theorem c4_log_lines (s : ServerState) (fs : Fs)
    (mg : List Char → Option (List Char)) (req : Request) :
    (((serverStep s fs mg req).2.1.status = 200 ∨
        (serverStep s fs mg req).2.1.status = 301) ∧
      (serverStep s fs mg req).2.2 =
        [log_message req.client
          (formatRequest req.method req.path (serverStep s fs mg req).2.1.status)] ∨
     (serverStep s fs mg req).2.1.status = 404 ∧
      (serverStep s fs mg req).2.2 =
        [log_message req.client (formatError 404 "File not found".data),
         log_message req.client
          (formatRequest req.method req.path (serverStep s fs mg req).2.1.status)] ∨
     (serverStep s fs mg req).2.1.status = 501 ∧
      (serverStep s fs mg req).2.2 =
        [log_message req.client (formatError 501
            ("Unsupported method (".data ++ '\'' :: (req.method ++ '\'' :: ")".data))),
         log_message req.client
          (formatRequest req.method req.path (serverStep s fs mg req).2.1.status)]) ∧
    containsSeq req.client (log_message req.client
      (formatRequest req.method req.path (serverStep s fs mg req).2.1.status)) = true ∧
    containsSeq req.method (log_message req.client
      (formatRequest req.method req.path (serverStep s fs mg req).2.1.status)) = true ∧
    containsSeq req.path (log_message req.client
      (formatRequest req.method req.path (serverStep s fs mg req).2.1.status)) = true ∧
    containsSeq (toString (serverStep s fs mg req).2.1.status).data (log_message req.client
      (formatRequest req.method req.path (serverStep s fs mg req).2.1.status)) = true := by
  obtain ⟨h1, h2, h3, h4⟩ :=
    logLine_contains req.client req.method req.path (serverStep s fs mg req).2.1.status
  refine ⟨?_, h1, h2, h3, h4⟩
  unfold serverStep
  dsimp only
  split
  · split
    · exact Or.inl ⟨Or.inl rfl, rfl⟩
    · split
      · split
        · split
          · exact Or.inl ⟨Or.inl rfl, rfl⟩
          · exact Or.inl ⟨Or.inl rfl, rfl⟩
        · exact Or.inl ⟨Or.inr rfl, rfl⟩
      · exact Or.inr (Or.inl ⟨rfl, rfl⟩)
  · exact Or.inr (Or.inr ⟨rfl, rfl⟩)

/-- C5.  A GET request for an existing regular file is answered with
status 200, a `Content-Type` equal to the resolved type, the
`Access-Control-Allow-Origin: *` header, and exactly the file's bytes
as body. -/
theorem c5_serve_regular_file (s : ServerState) (fs : Fs)
    (mg : List Char → Option (List Char)) (pa addr : List Char) (bytes : Bytes)
    (hf : List.lookup pa fs.files = some bytes) :
    (serverStep s fs mg ⟨"GET".data, pa, addr⟩).2.1.status = 200 ∧
    contentTypeOf (serverStep s fs mg ⟨"GET".data, pa, addr⟩).2.1 =
      some (guess_type s.extensionsMap mg pa) ∧
    corsHeader ∈ (serverStep s fs mg ⟨"GET".data, pa, addr⟩).2.1.headers ∧
    (serverStep s fs mg ⟨"GET".data, pa, addr⟩).2.1.body = bytes := by
  have h := serve_file_response s fs mg "GET".data pa addr bytes (Or.inl rfl) hf
  refine ⟨by rw [h], by rw [h]; rfl, by rw [h]; exact cors_mem_end_headers _, ?_⟩
  rw [h]
  dsimp only
  exact if_pos rfl

theorem c5_witness :
    List.lookup "/data.json".data
        (Fs.mk [("/data.json".data, [123, 34, 97, 34, 58, 49, 125])] []).files =
      some [123, 34, 97, 34, 58, 49, 125] ∧
    (serverStep initState (Fs.mk [("/data.json".data, [123, 34, 97, 34, 58, 49, 125])] [])
        (fun _ => none) ⟨"GET".data, "/data.json".data, "c".data⟩).2.1.status = 200 ∧
    contentTypeOf (serverStep initState
        (Fs.mk [("/data.json".data, [123, 34, 97, 34, 58, 49, 125])] [])
        (fun _ => none) ⟨"GET".data, "/data.json".data, "c".data⟩).2.1 =
      some (guess_type initState.extensionsMap (fun _ => none) "/data.json".data) ∧
    corsHeader ∈ (serverStep initState
        (Fs.mk [("/data.json".data, [123, 34, 97, 34, 58, 49, 125])] [])
        (fun _ => none) ⟨"GET".data, "/data.json".data, "c".data⟩).2.1.headers ∧
    (serverStep initState (Fs.mk [("/data.json".data, [123, 34, 97, 34, 58, 49, 125])] [])
        (fun _ => none) ⟨"GET".data, "/data.json".data, "c".data⟩).2.1.body =
      [123, 34, 97, 34, 58, 49, 125] := by
  have h := c5_serve_regular_file initState
    (Fs.mk [("/data.json".data, [123, 34, 97, 34, 58, 49, 125])] [])
    (fun _ => none) "/data.json".data "c".data [123, 34, 97, 34, 58, 49, 125] (by decide)
  exact ⟨by decide, h.1, h.2.1, h.2.2.1, h.2.2.2⟩

/-- The responses of a run are those of each request handled from the
same state: the state after any request is the state before it, so no
request can affect another. -/
theorem runRequests_responses (s : ServerState) (fs : Fs)
    (mg : List Char → Option (List Char)) (reqs : List Request) :
    (runRequests s fs mg reqs).2 = reqs.map (fun r => (serverStep s fs mg r).2.1) ∧
    (runRequests s fs mg reqs).1 = s := by
  induction reqs with
  | nil => exact ⟨rfl, rfl⟩
  | cons r rs ih =>
      refine ⟨?_, ?_⟩
      · show (serverStep s fs mg r).2.1 :: (runRequests (serverStep s fs mg r).1 fs mg rs).2 =
          (serverStep s fs mg r).2.1 :: rs.map (fun r => (serverStep s fs mg r).2.1)
        exact congrArg _ ih.1
      · show (runRequests (serverStep s fs mg r).1 fs mg rs).1 = s
        exact ih.2

/-- C6.  A GET or HEAD request for a path with no filesystem entry is
answered with status 404; the server state is unchanged, and the
response to every request in a run is the one it would get handled
alone from the same state, so the failed request affects no other. -/
theorem c6_not_found_isolated (s : ServerState) (fs : Fs)
    (mg : List Char → Option (List Char)) (req : Request)
    (hm : req.method = "GET".data ∨ req.method = "HEAD".data)
    (hf : List.lookup req.path fs.files = none)
    (hd : req.path ∉ fs.dirs) :
    (serverStep s fs mg req).2.1.status = 404 ∧
    (serverStep s fs mg req).1 = s ∧
    ∀ reqs : List Request,
      (runRequests s fs mg reqs).2 = reqs.map (fun r => (serverStep s fs mg r).2.1) := by
  refine ⟨?_, rfl, fun reqs => (runRequests_responses s fs mg reqs).1⟩
  unfold serverStep
  dsimp only
  rw [if_pos hm, hf]
  dsimp only
  rw [if_neg hd]
  rfl

theorem c6_witness :
    (("GET".data : List Char) = "GET".data ∨ ("GET".data : List Char) = "HEAD".data) ∧
    List.lookup "/absent".data (Fs.mk [] []).files = none ∧
    ¬ ("/absent".data ∈ (Fs.mk [] []).dirs) ∧
    (serverStep initState (Fs.mk [] []) (fun _ => none)
        ⟨"GET".data, "/absent".data, "c".data⟩).2.1.status = 404 := by
  refine ⟨Or.inl rfl, by decide, by decide, ?_⟩
  exact (c6_not_found_isolated initState (Fs.mk [] []) (fun _ => none)
    ⟨"GET".data, "/absent".data, "c".data⟩ (Or.inl rfl) (by decide) (by decide)).1

/-- C9.  Handling a request mutates no server state: the MIME table the
process starts with is the source's table, the state after any request
equals the state before it (so the table is identical before and after
every request), and a whole run of requests leaves the state it started
from. -/
theorem c9_no_state_mutation :
    initState.extensionsMap = extensions_map ∧
    (∀ (s : ServerState) (fs : Fs) (mg : List Char → Option (List Char)) (req : Request),
      (serverStep s fs mg req).1 = s ∧
      (serverStep s fs mg req).1.extensionsMap = s.extensionsMap) ∧
    (∀ (s : ServerState) (fs : Fs) (mg : List Char → Option (List Char))
      (reqs : List Request), (runRequests s fs mg reqs).1 = s) :=
  ⟨rfl, fun _ _ _ _ => ⟨rfl, rfl⟩, fun s fs mg reqs => (runRequests_responses s fs mg reqs).2⟩

/-- C7.  When the bind fails because the port is taken, the process
exits with status 1, prints no banner (standard output stays empty),
and its diagnostic on standard error is the interpreter's traceback,
which contains the underlying error message. -/
theorem c7_bind_failure (msg : String) (sv : ServeOutcome) :
    (mainRun (.fail msg) sv).exitCode = 1 ∧
    (mainRun (.fail msg) sv).stdout = [] ∧
    (mainRun (.fail msg) sv).stderr = [tracebackOf msg] ∧
    containsSeq msg.data (tracebackOf msg).data = true := by
  refine ⟨rfl, rfl, rfl, ?_⟩
  have h : (tracebackOf msg).data =
      "Traceback (most recent call last):\n".data ++ msg.data := by
    obtain ⟨l⟩ := msg
    rfl
  rw [h]
  apply containsSeq_append_left
  apply containsSeq_of_isHeadOf
  have := isHeadOf_append_self msg.data []
  simpa using this

/-- C8.  An interrupt while serving lets `main` print the shutdown
notice, leave the accept loop, close the socket and return, so the
process exits with status 0. -/
theorem c8_interrupt_clean_exit :
    (mainRun .ok .interrupted).exitCode = 0 ∧
    shutdownNotice ∈ (mainRun .ok .interrupted).stdout ∧
    (mainRun .ok .interrupted).stdout = bannerLines ++ [shutdownNotice] ∧
    (mainRun .ok .interrupted).socketClosed = true := by
  refine ⟨rfl, ?_, rfl, rfl⟩
  show shutdownNotice ∈ bannerLines ++ [shutdownNotice]
  simp

/-- C10.  On every exit from the serve loop the listening socket is
closed, because the `with` statement runs the server's close on every
path out of its body; the shutdown notice is printed exactly when the
loop ended by `KeyboardInterrupt`. -/
theorem c10_socket_closed_on_exit (sv : ServeOutcome) :
    (mainRun .ok sv).socketClosed = true ∧
    (shutdownNotice ∈ (mainRun .ok sv).stdout ↔ sv = .interrupted) := by
  cases sv with
  | interrupted =>
      refine ⟨rfl, ⟨fun _ => rfl, fun _ => ?_⟩⟩
      show shutdownNotice ∈ bannerLines ++ [shutdownNotice]
      simp
  | raised msg =>
      refine ⟨rfl, ⟨fun h => ?_, fun h => ServeOutcome.noConfusion h⟩⟩
      have hmem : shutdownNotice ∉ bannerLines := by decide
      exact absurd h hmem
